import Mathlib

/-!
Shallow embedding of the stock-data retrieval and fallback-synthesis pipeline
of `src/main.py` (`generate_sample_data`, lines 77-203, and `get_stock_data`,
lines 206-327), together with theorems settling the frozen claims C1-C10.

Modelling conventions:

* Python floats are modelled as rationals (`ℚ`); `round(x, 2)` is modelled as
  decimal round-half-to-even (CPython's `round`) on `ℚ`, and `int(x)` as
  truncation toward zero (`pytrunc`).
* `datetime` values are integers counting microseconds since the epoch
  (CPython datetimes have microsecond resolution).  `timedelta(days=1)` is
  `86400000000` microseconds; `(end - start).days` is floor division of the
  microsecond difference by a day; `int(ts.timestamp() * 1000)` is truncation
  of the microsecond count divided by `1000`.
* `numpy`'s seeded generator is modelled by a parameter
  `draws : ℕ → ℕ → ℚ`: after `np.random.seed s`, the j-th value returned by
  `np.random.normal(...)` is `draws s j`.  The stream is an arbitrary function
  of the seed, which over-approximates the concrete Mersenne-Twister stream;
  the stream for a given seed is the same on every call, which is exactly what
  seeding guarantees.  `generate_sample_data` consumes one draw per price step
  (indices `0..n-1`) and then three draws per OHLC step (indices `n+3i`,
  `n+3i+1`, `n+3i+2`), in the source's call order.
* Python's process-wide string hash is a parameter `shash : String → ℤ`
  (within one process it is a fixed function; `x % m` for `m > 0` is `emod`).
* The upstream provider (`yfinance`) and the exception behaviour of its calls
  are modelled by an explicit `Env`; every provider call returns
  `Except Unit _`, `.error` standing for a raised exception.
-/

/-- One row of a pandas DataFrame as the pipeline consumes it: the index
timestamp (microseconds since the epoch) and the `Open`/`High`/`Low`/`Close`/
`Volume` columns, each `Option` so that `dropna` (which removes rows with any
missing field) can be modelled.  Field `openV` renders Python's `Open` column
(`open` is a Lean keyword). -/
structure Row where
  ts : ℤ
  openV : Option ℚ
  highV : Option ℚ
  lowV : Option ℚ
  closeV : Option ℚ
  volV : Option ℤ
deriving Repr, DecidableEq

/-- A pandas DataFrame as used by the pipeline: a list of rows in index
order. -/
abbrev Frame := List Row

/-- The canonical per-symbol output structure built at `src/main.py` lines
196-203 and 306-313. -/
structure SymbolSeries where
  timestamps : List ℤ
  openP : List ℚ
  highP : List ℚ
  lowP : List ℚ
  closeP : List ℚ
  volume : List ℤ
deriving Repr, DecidableEq

/-- Python `int(q)` on a real value: truncation toward zero (`Rat.floor` is
the kernel-computable floor on `ℚ`). -/
def pytrunc (q : ℚ) : ℤ := if 0 ≤ q then q.floor else -(-q).floor

/-- `int(ts.timestamp() * 1000)`: a microsecond epoch value becomes a
millisecond epoch integer by truncating division. -/
def toMs (t : ℤ) : ℤ := pytrunc ((t : ℚ) / 1000)

/-- Round to the nearest integer, ties to even — the idealization on `ℚ` of
CPython `round` (banker's rounding). -/
def roundHE (m : ℚ) : ℤ :=
  if m - m.floor < 1 / 2 then m.floor
  else if 1 / 2 < m - m.floor then m.floor + 1
  else if m.floor % 2 = 0 then m.floor else m.floor + 1

/-- Python `round(q, 2)`. -/
def pyround2 (q : ℚ) : ℚ := ((roundHE (q * 100) : ℚ)) / 100

/-- Microseconds in one day, hour, minute (`timedelta` units). -/
def usDay : ℤ := 86400000000

def usHour : ℤ := 3600000000

def usMinute : ℤ := 60000000

/-- `base_prices` table, `src/main.py` lines 82-93. -/
def base_prices : List (String × ℚ) :=
  [("AAPL", 175), ("GOOGL", 138), ("MSFT", 340), ("AMZN", 155), ("TSLA", 250),
   ("NVDA", 450), ("META", 320), ("NFLX", 450), ("SPY", 450), ("QQQ", 380)]

/-- `base_prices.get(symbol.upper(), 100.0)`, line 95. -/
def basePrice (symbol : String) : ℚ := (base_prices.lookup symbol.toUpper).getD 100

/-- A `from_date`/`to_date` HTTP argument: absent (`none`, covering Python
`None` and the falsy empty string), or present and parsed by
`datetime.fromisoformat` to a microsecond epoch (`some (.ok t)`), or present
but raising on parse (`some (.error ())`). -/
abbrev DateArg := Option (Except Unit ℤ)

/-- Lines 98-115: the explicit-date branch is taken exactly when both
arguments are present (truthy) and both parse; a parse failure falls back to
the period-based calculation (`from_date = to_date = None`). -/
def parsedSpan (from_date to_date : DateArg) : Option (ℤ × ℤ) :=
  match from_date, to_date with
  | some (Except.ok a), some (Except.ok b) => some (a, b)
  | some _, some _ => none
  | _, _ => none

/-- Lines 102-112: point count and timestamps for the explicit-date branch.
`days_diff = (end_date - start_date).days` is floor division by one day;
`range` of a negative count is empty, hence `Int.toNat`. -/
def explicitPlan (interval : String) (a b : ℤ) : ℕ × List ℤ :=
  let days_diff : ℤ := Int.fdiv (b - a) usDay
  if interval = "1d" then
    let n := (min days_diff 365).toNat
    (n, (List.range n).map (fun (i : ℕ) => a + (i : ℤ) * usDay))
  else if interval = "1h" then
    let n := (min (days_diff * 24) (365 * 24)).toNat
    (n, (List.range n).map (fun (i : ℕ) => a + (i : ℤ) * usHour))
  else
    let n := (min days_diff 365).toNat
    (n, (List.range n).map (fun (i : ℕ) => a + (i : ℤ) * usDay))

/-- Lines 117-137: point count by `(period, interval)` when no explicit dates
are used. -/
def defaultPoints (period interval : String) : ℕ :=
  if period = "1d" ∧ interval = "1m" then 390
  else if period = "1d" then 78
  else if period = "5d" then 5
  else if period = "1mo" ∨ period = "1M" then 30
  else if period = "3mo" ∨ period = "3M" then 90
  else if period = "6mo" ∨ period = "6M" then 180
  else if period = "1y" ∨ period = "1Y" then 252
  else if period = "2y" ∨ period = "2Y" then 504
  else if period = "5y" ∨ period = "5Y" then 1260
  else 30

/-- Lines 139-150: backward step from `now` per interval code. -/
def defaultStep (interval : String) : ℤ :=
  if interval = "1m" then usMinute
  else if interval = "5m" then 5 * usMinute
  else if interval = "15m" then 15 * usMinute
  else if interval = "1h" then usHour
  else usDay

/-- Lines 139-152: timestamps for the default branch, generated backward from
`now` and then reversed to oldest-first. -/
def defaultTimestamps (now : ℤ) (interval : String) (n : ℕ) : List ℤ :=
  ((List.range n).map (fun (i : ℕ) => now - (i : ℤ) * defaultStep interval)).reverse

/-- `data_points` as finally used by the generation loops (lines 104-137). -/
def genPoints (period interval : String) (from_date to_date : DateArg) : ℕ :=
  match parsedSpan from_date to_date with
  | some (a, b) => (explicitPlan interval a b).1
  | none => defaultPoints period interval

/-- The `timestamps` list (microsecond datetimes) of the generation
(lines 104-152). -/
def genTimestamps (period interval : String) (from_date to_date : DateArg) (now : ℤ) :
    List ℤ :=
  match parsedSpan from_date to_date with
  | some (a, b) => (explicitPlan interval a b).2
  | none => defaultTimestamps now interval (defaultPoints period interval)

/-- `np.random.seed(hash(symbol) % 2**32)`, line 155. -/
def seedOf (shash : String → ℤ) (symbol : String) : ℕ :=
  ((shash symbol).emod (2 ^ 32)).toNat

/-- Lines 166-168: clamp the compounded price into
`[base * 0.5, base * 2.0]` (`max` first, then `min`, as in the source). -/
def clampPrice (base p : ℚ) : ℚ := min (max p (base * (1 / 2))) (base * 2)

/-- The random-walk price loop, lines 161-170: starting from `cur`, for `k`
further steps draw `g i`, compound and clamp, recording each post-clamp
price. -/
def pricesAux (base : ℚ) (g : ℕ → ℚ) : ℚ → ℕ → ℕ → List ℚ
  | _, _, 0 => []
  | cur, i, Nat.succ k =>
      let p := clampPrice base (cur * (1 + g i))
      p :: pricesAux base g p (i + 1) k

/-- The `prices` list of `generate_sample_data`. -/
def pricesOf (base : ℚ) (g : ℕ → ℚ) (n : ℕ) : List ℚ := pricesAux base g base 0 n

/-- Lines 172-175: per-step volume,
`int((1000000 + hash(symbol + str(i)) % 5000000) * (1 + abs(change) * 10))`
where `change` is the i-th price draw. -/
def volumeAt (shash : String → ℤ) (symbol : String) (g : ℕ → ℚ) (i : ℕ) : ℤ :=
  let base_volume : ℤ := 1000000 + (shash (symbol ++ toString i)).emod 5000000
  pytrunc ((base_volume : ℚ) * (1 + |g i| * 10))

/-- Line 183: `open_price = price * (1 + np.random.normal(0, 0.005))`; the
OHLC loop's draws start at stream index `n` (the price loop consumed `n`). -/
def ohlcOpen (g : ℕ → ℚ) (n i : ℕ) (c : ℚ) : ℚ := c * (1 + g (n + 3 * i))

/-- Line 184: `high_price = max(open_price, price) * (1 + abs(normal))`. -/
def ohlcHigh (g : ℕ → ℚ) (n i : ℕ) (c : ℚ) : ℚ :=
  max (ohlcOpen g n i c) c * (1 + |g (n + 3 * i + 1)|)

/-- Line 185: `low_price = min(open_price, price) * (1 - abs(normal))`. -/
def ohlcLow (g : ℕ → ℚ) (n i : ℕ) (c : ℚ) : ℚ :=
  min (ohlcOpen g n i c) c * (1 - |g (n + 3 * i + 2)|)

/-- `generate_sample_data(symbol, period, interval, from_date, to_date)`
(lines 77-203).  `now` is the value `datetime.now()` reads on this call;
`shash` and `draws` are the process hash function and the seeded generator
stream. -/
def generate_sample_data (shash : String → ℤ) (draws : ℕ → ℕ → ℚ)
    (symbol period interval : String) (from_date to_date : DateArg) (now : ℤ) :
    SymbolSeries :=
  let base := basePrice symbol
  let n := genPoints period interval from_date to_date
  let g := draws (seedOf shash symbol)
  let prices := pricesOf base g n
  { timestamps := (genTimestamps period interval from_date to_date now).map toMs
    openP := prices.enum.map (fun q => pyround2 (ohlcOpen g n q.1 q.2))
    highP := prices.enum.map (fun q => pyround2 (ohlcHigh g n q.1 q.2))
    lowP := prices.enum.map (fun q => pyround2 (ohlcLow g n q.1 q.2))
    closeP := prices.map pyround2
    volume := (List.range n).map (fun i => volumeAt shash symbol g i) }

/-- Python `str.split(',')` (no maxsplit), `symbol_list = symbols.split(',')`
at line 207: split at every comma, keeping empty pieces; the empty string
splits to `[""]`.  (A structural recursion over the character list, so that
concrete instances compute.) -/
def pySplitAux : List Char → List Char → List String
  | [], acc => [String.mk acc.reverse]
  | c :: cs, acc =>
      if c = ',' then String.mk acc.reverse :: pySplitAux cs []
      else pySplitAux cs (c :: acc)

/-- `symbols.split(',')`. -/
def pySplit (s : String) : List String := pySplitAux s.data []

/-- `period_map`, `src/main.py` lines 210-214. -/
def period_map : List (String × String) :=
  [("1D", "1d"), ("5D", "5d"), ("1W", "5d"), ("1M", "1mo"), ("3M", "3mo"),
   ("6M", "6mo"), ("1Y", "1y"), ("2Y", "2y"), ("5Y", "5y"), ("YTD", "ytd"),
   ("MTD", "1mo")]

/-- `interval_map`, lines 217-229; like `period_map` it is keyed by the
user-facing range token (the `period` argument of `get_stock_data`). -/
def interval_map : List (String × String) :=
  [("1D", "1m"), ("5D", "5m"), ("1W", "15m"), ("1M", "1h"), ("3M", "1d"),
   ("6M", "1d"), ("1Y", "1d"), ("2Y", "1d"), ("5Y", "1d"), ("YTD", "1d"),
   ("MTD", "1h")]

/-- `yf_period = period_map.get(period, '1mo')`, line 231. -/
def yfPeriod (period : String) : String := (period_map.lookup period).getD "1mo"

/-- `yf_interval = interval_map.get(period, '1d')`, line 232. -/
def yfInterval (period : String) : String := (interval_map.lookup period).getD "1d"

/-- Python dict assignment `m[k] = v`: overwrite in place if the key exists,
append otherwise. -/
def upsert {α : Type} (m : List (String × α)) (k : String) (v : α) :
    List (String × α) :=
  if m.any (fun p => p.1 == k) then
    m.map (fun p => if p.1 = k then (k, v) else p)
  else m ++ [(k, v)]

/-- The shape of a successful `yf.download` result (method 1, lines 242-251):
either a plain DataFrame or a frame grouped by ticker (`group_by='ticker'`),
from which `data[symbol]` selects a slice and raises `KeyError` if the ticker
is absent. -/
inductive BulkData where
  | plain : Frame → BulkData
  | keyed : List (String × Frame) → BulkData
deriving Repr

/-- `data.empty` for a bulk result: a frame is empty when it has no rows; a
ticker-grouped frame shares one row index across tickers, so it is empty when
all its slices are. -/
def BulkData.isEmptyB : BulkData → Bool
  | .plain f => f.isEmpty
  | .keyed m => m.all (fun p => p.2.isEmpty)

/-- The value of the local variable `data` when the per-symbol loop starts
(line 284): `nodata` renders Python `None`; `dict` is the dictionary built by
the individual-ticker strategy (looked up with `.get`, `None` on a missing
key). -/
inductive RawData where
  | nodata : RawData
  | frame : Frame → RawData
  | keyed : List (String × Frame) → RawData
  | dict : List (String × Frame) → RawData
deriving Repr

/-- The upstream provider and the exception behaviour of its calls.  `bulk`
is `yf.download(symbol_list, period, interval, ...)` and `hist` is
`yf.Ticker(symbol).history(period, interval, ...)`; `.error ()` is a raised
exception (always caught by the source).  `fatal` models an exception that
escapes the per-symbol handlers and reaches the outer handler of lines
321-327 (unreachable for the operations modelled here, but present in the
source). -/
structure Env where
  bulk : List String → String → String → Except Unit BulkData
  hist : String → String → String → Except Unit Frame
  fatal : Bool

/-- Lines 236-281: method 1 (bulk download, exceptions leave `data = None`),
then, if `data is None or data.empty`, method 2 (per-symbol `history` with
per-symbol exception isolation, keeping only non-empty frames), combined into
a single frame for one requested symbol (`list(all_data.values())[0]`) or a
dict for several. -/
def fetchRaw (env : Env) (symbol_list : List String) (p i : String) : RawData :=
  let data0 : Option BulkData :=
    match env.bulk symbol_list p i with
    | Except.ok d => some d
    | Except.error _ => none
  let needMethod2 : Bool :=
    match data0 with
    | none => true
    | some d => d.isEmptyB
  let asRaw : Option BulkData → RawData := fun d =>
    match d with
    | none => RawData.nodata
    | some (BulkData.plain f) => RawData.frame f
    | some (BulkData.keyed m) => RawData.keyed m
  if needMethod2 then
    let all_data : List (String × Frame) :=
      symbol_list.foldl (fun acc s =>
        match env.hist s p i with
        | Except.ok h => if h.isEmpty then acc else upsert acc s h
        | Except.error _ => acc) []
    match all_data with
    | [] => asRaw data0
    | (s0, f0) :: rest =>
        if symbol_list.length = 1 then RawData.frame f0
        else RawData.dict ((s0, f0) :: rest)
  else asRaw data0

/-- `df.dropna()`, line 299: drop every row with a missing field. -/
def dropna (f : Frame) : Frame :=
  f.filter (fun r =>
    r.openV.isSome && r.highV.isSome && r.lowV.isSome && r.closeV.isSome &&
      r.volV.isSome)

/-- Lines 306-313: project an NA-free frame into the canonical shape (the
`getD 0` defaults are never exercised: the source applies this only after
`dropna`). -/
def normalizeFrame (f : Frame) : SymbolSeries :=
  { timestamps := f.map (fun r => toMs r.ts)
    openP := f.map (fun r => r.openV.getD 0)
    highP := f.map (fun r => r.highV.getD 0)
    lowP := f.map (fun r => r.lowV.getD 0)
    closeP := f.map (fun r => r.closeV.getD 0)
    volume := f.map (fun r => r.volV.getD 0) }

/-- `df.columns.droplevel(0)` on a ticker-grouped frame holding a single
ticker (lines 288-290) yields that ticker's frame; for the shapes the
provider actually returns the grouped frame has exactly one slice here, and
this concatenation is that slice. -/
def flattenKeyed (m : List (String × Frame)) : Frame :=
  m.foldr (fun p acc => p.2 ++ acc) []

/-- Lines 286-292: select this symbol's slice `df` out of `data`.
`.error ()` is a raised exception (`None[symbol]` or a `KeyError`), caught at
line 316; `.ok none` is `df = None` (a `dict.get` miss, or `data` still
`None` in the single-symbol case). -/
def extractFrame (single : Bool) (data : RawData) (s : String) :
    Except Unit (Option Frame) :=
  if single then
    match data with
    | RawData.nodata => Except.ok Option.none
    | RawData.frame f => Except.ok (some f)
    | RawData.keyed m => Except.ok (some (flattenKeyed m))
    | RawData.dict m => Except.ok (some (flattenKeyed m))
  else
    match data with
    | RawData.nodata => Except.error ()
    | RawData.frame _ => Except.error ()
    | RawData.keyed m =>
        match m.lookup s with
        | some f => Except.ok (some f)
        | none => Except.error ()
    | RawData.dict m => Except.ok (m.lookup s)

/-- Lines 284-313 for one symbol, up to (but not including) the synthetic
substitution: `some series` when the symbol is served normalized live data,
`none` when any stage fails for it (exception, `df` missing or empty, or
empty after `dropna`) and the fallback generator must run instead. -/
def symbolOutcome (env : Env) (symbol_list : List String) (p i : String)
    (s : String) : Option SymbolSeries :=
  match extractFrame (symbol_list.length = 1) (fetchRaw env symbol_list p i) s with
  | Except.error _ => Option.none
  | Except.ok Option.none => Option.none
  | Except.ok (some f) =>
      if f.isEmpty then Option.none
      else if (dropna f).length = 0 then Option.none
      else some (normalizeFrame (dropna f))

/-- `get_stock_data(symbols, period, interval, from_date, to_date)`
(lines 206-327).  The `interval` argument is accepted and ignored, exactly as
in the source (the HTTP layer passes `""`); the effective granularity comes
from `interval_map[period]`.  When `env.fatal` holds, the outer handler of
lines 321-327 builds the all-synthetic result; otherwise each comma-split
token gets its live series or its synthetic substitute. -/
def get_stock_data (shash : String → ℤ) (draws : ℕ → ℕ → ℚ) (env : Env)
    (now : ℤ) (symbols period interval : String) (from_date to_date : DateArg) :
    List (String × SymbolSeries) :=
  let symbol_list := pySplit symbols
  let p := yfPeriod period
  let i := yfInterval period
  if env.fatal then
    symbol_list.foldl (fun r s =>
      upsert r s (generate_sample_data shash draws s p i from_date to_date now)) []
  else
    symbol_list.foldl (fun r s =>
      upsert r s ((symbolOutcome env symbol_list p i s).getD
        (generate_sample_data shash draws s p i from_date to_date now))) []

/-- The per-token value `get_stock_data` ends up storing: the synthetic series
on the fatal path, otherwise the live series when the symbol's pipeline stage
succeeds and the synthetic substitute when it does not. -/
def pipelineValue (shash : String → ℤ) (draws : ℕ → ℕ → ℚ) (env : Env)
    (now : ℤ) (symbols period : String) (from_date to_date : DateArg)
    (s : String) : SymbolSeries :=
  if env.fatal then
    generate_sample_data shash draws s (yfPeriod period) (yfInterval period)
      from_date to_date now
  else
    (symbolOutcome env (pySplit symbols) (yfPeriod period)
        (yfInterval period) s).getD
      (generate_sample_data shash draws s (yfPeriod period) (yfInterval period)
        from_date to_date now)

/-! ### Association-map lemmas for the Python-dict fold -/

theorem lookup_map_overwrite {α : Type} (k : String) (v : α) :
    ∀ m : List (String × α),
      (m.map (fun p => if p.1 = k then (k, v) else p)).lookup k =
        if k ∈ m.map Prod.fst then some v else none := by
  intro m
  induction m with
  | nil => simp
  | cons q t ih =>
      obtain ⟨a, b⟩ := q
      by_cases hq : a = k
      · subst hq
        simp [List.lookup_cons, ih]
      · have hk : (k == a) = false := beq_false_of_ne (Ne.symm hq)
        have hne : ¬ k = a := Ne.symm hq
        simp only [List.map_cons, if_neg hq, List.lookup_cons, hk, ih]
        by_cases hmem : k ∈ List.map Prod.fst t
        · simp [hmem, hne]
        · simp [hmem, hne]

theorem lookup_eq_none_of_not_mem_keys {α : Type} (k : String) :
    ∀ m : List (String × α), k ∉ m.map Prod.fst → m.lookup k = none := by
  intro m
  induction m with
  | nil => simp
  | cons q t ih =>
      intro hk
      obtain ⟨a, b⟩ := q
      simp only [List.map_cons, List.mem_cons] at hk
      push_neg at hk
      have hq : (k == a) = false := beq_false_of_ne hk.1
      simp [List.lookup_cons, hq, ih hk.2]

theorem lookup_append_right {α : Type} (k : String) (m m2 : List (String × α))
    (h : m.lookup k = none) : (m ++ m2).lookup k = m2.lookup k := by
  induction m with
  | nil => simp
  | cons q t ih =>
      obtain ⟨a, b⟩ := q
      rcases hq : (k == a) with _ | _
      · simp only [List.cons_append, List.lookup_cons, hq]
        apply ih
        simpa [List.lookup_cons, hq] using h
      · simp [List.lookup_cons, hq] at h

theorem any_key_iff {α : Type} (k : String) (m : List (String × α)) :
    (m.any (fun p => p.1 == k)) = true ↔ k ∈ m.map Prod.fst := by
  simp [List.any_eq_true, List.mem_map]

theorem upsert_lookup_self {α : Type} (m : List (String × α)) (k : String)
    (v : α) : (upsert m k v).lookup k = some v := by
  unfold upsert
  by_cases hmem : k ∈ m.map Prod.fst
  · rw [if_pos ((any_key_iff k m).mpr hmem), lookup_map_overwrite, if_pos hmem]
  · rw [if_neg (fun h => hmem ((any_key_iff k m).mp h)),
      lookup_append_right k m _ (lookup_eq_none_of_not_mem_keys k m hmem)]
    simp [List.lookup]

theorem lookup_map_overwrite_ne {α : Type} (k u : String) (v : α)
    (huk : u ≠ k) :
    ∀ m : List (String × α),
      (m.map (fun p => if p.1 = k then (k, v) else p)).lookup u = m.lookup u := by
  intro m
  induction m with
  | nil => simp
  | cons q t ih =>
      obtain ⟨a, b⟩ := q
      by_cases hq : a = k
      · subst hq
        have hu : (u == a) = false := beq_false_of_ne huk
        simp [List.lookup_cons, hu, ih]
      · simp only [List.map_cons, if_neg hq, List.lookup_cons]
        rcases hq2 : (u == a) with _ | _
        · exact ih
        · rfl

theorem lookup_append_single_ne {α : Type} (k u : String) (v : α)
    (huk : u ≠ k) :
    ∀ m : List (String × α), (m ++ [(k, v)]).lookup u = m.lookup u := by
  intro m
  induction m with
  | nil => simp [List.lookup_cons, beq_false_of_ne huk]
  | cons q t ih =>
      obtain ⟨a, b⟩ := q
      rcases hq : (u == a) with _ | _
      · simp [List.lookup_cons, hq, ih]
      · simp [List.lookup_cons, hq]

theorem upsert_lookup_ne {α : Type} (m : List (String × α)) (k u : String)
    (v : α) (huk : u ≠ k) : (upsert m k v).lookup u = m.lookup u := by
  unfold upsert
  split
  · exact lookup_map_overwrite_ne k u v huk m
  · exact lookup_append_single_ne k u v huk m

theorem upsert_keys {α : Type} (m : List (String × α)) (k : String) (v : α) :
    (upsert m k v).map Prod.fst =
      if k ∈ m.map Prod.fst then m.map Prod.fst else m.map Prod.fst ++ [k] := by
  unfold upsert
  by_cases hmem : k ∈ m.map Prod.fst
  · rw [if_pos ((any_key_iff k m).mpr hmem), if_pos hmem, List.map_map]
    apply List.map_congr_left
    intro p _
    by_cases hp : p.1 = k
    · simp [hp]
    · simp [hp]
  · rw [if_neg (fun h => hmem ((any_key_iff k m).mp h)), if_neg hmem]
    simp

theorem upsert_keys_mem {α : Type} (m : List (String × α)) (k u : String)
    (v : α) : u ∈ (upsert m k v).map Prod.fst ↔ u ∈ m.map Prod.fst ∨ u = k := by
  rw [upsert_keys]
  split
  · constructor
    · exact fun h => Or.inl h
    · rintro (h | rfl)
      · exact h
      · assumption
  · simp

theorem upsert_keys_nodup {α : Type} (m : List (String × α)) (k : String)
    (v : α) (h : (m.map Prod.fst).Nodup) : ((upsert m k v).map Prod.fst).Nodup := by
  rw [upsert_keys]
  split
  · exact h
  · rw [List.nodup_append]
    refine ⟨h, List.nodup_singleton k, ?_⟩
    intro a ha hb
    simp only [List.mem_singleton] at hb
    subst hb
    exact absurd ha (by assumption)

theorem lookup_foldl_upsert {α : Type} (f : String → α) (l : List String)
    (t : String) :
    ∀ m0 : List (String × α),
      (l.foldl (fun r s => upsert r s (f s)) m0).lookup t =
        if t ∈ l then some (f t) else m0.lookup t := by
  induction l with
  | nil => intro m0; simp
  | cons s l ih =>
      intro m0
      rw [List.foldl_cons, ih]
      by_cases h : t ∈ l
      · simp [h]
      · by_cases hts : t = s
        · subst hts
          simp [h, upsert_lookup_self]
        · simp [h, hts, upsert_lookup_ne _ _ _ _ hts]

theorem keys_foldl_upsert {α : Type} (f : String → α) (l : List String) :
    ∀ (m0 : List (String × α)) (u : String),
      u ∈ ((l.foldl (fun r s => upsert r s (f s)) m0).map Prod.fst) ↔
        u ∈ m0.map Prod.fst ∨ u ∈ l := by
  induction l with
  | nil => intro m0 u; simp
  | cons s l ih =>
      intro m0 u
      rw [List.foldl_cons, ih, upsert_keys_mem]
      simp only [List.mem_cons]
      tauto

theorem nodup_keys_foldl_upsert {α : Type} (f : String → α) (l : List String) :
    ∀ m0 : List (String × α), (m0.map Prod.fst).Nodup →
      ((l.foldl (fun r s => upsert r s (f s)) m0).map Prod.fst).Nodup := by
  induction l with
  | nil => intro m0 h; simpa using h
  | cons s l ih =>
      intro m0 h
      rw [List.foldl_cons]
      exact ih _ (upsert_keys_nodup m0 s (f s) h)

/-! ### Characterization of the pipeline result -/

theorem get_stock_data_eq_fold (shash : String → ℤ) (draws : ℕ → ℕ → ℚ)
    (env : Env) (now : ℤ) (symbols period interval : String)
    (from_date to_date : DateArg) :
    get_stock_data shash draws env now symbols period interval from_date to_date =
      (pySplit symbols).foldl
        (fun r s =>
          upsert r s
            (pipelineValue shash draws env now symbols period from_date to_date s))
        [] := by
  unfold get_stock_data pipelineValue
  cases hf : env.fatal
  · simp only [hf, Bool.false_eq_true, if_false]
  · simp only [hf, if_true]

theorem get_stock_data_lookup (shash : String → ℤ) (draws : ℕ → ℕ → ℚ)
    (env : Env) (now : ℤ) (symbols period interval : String)
    (from_date to_date : DateArg) (t : String) :
    (get_stock_data shash draws env now symbols period interval from_date
        to_date).lookup t =
      if t ∈ pySplit symbols then
        some (pipelineValue shash draws env now symbols period from_date to_date t)
      else none := by
  rw [get_stock_data_eq_fold, lookup_foldl_upsert]
  simp

theorem get_stock_data_keys_mem (shash : String → ℤ) (draws : ℕ → ℕ → ℚ)
    (env : Env) (now : ℤ) (symbols period interval : String)
    (from_date to_date : DateArg) (u : String) :
    u ∈ (get_stock_data shash draws env now symbols period interval from_date
        to_date).map Prod.fst ↔ u ∈ pySplit symbols := by
  rw [get_stock_data_eq_fold, keys_foldl_upsert]
  simp

theorem get_stock_data_keys_nodup (shash : String → ℤ) (draws : ℕ → ℕ → ℚ)
    (env : Env) (now : ℤ) (symbols period interval : String)
    (from_date to_date : DateArg) :
    ((get_stock_data shash draws env now symbols period interval from_date
        to_date).map Prod.fst).Nodup := by
  rw [get_stock_data_eq_fold]
  exact nodup_keys_foldl_upsert _ _ [] (by simp)

theorem symbolOutcome_eq_some {env : Env} {l : List String} {p i s : String}
    {v : SymbolSeries} (h : symbolOutcome env l p i s = some v) :
    ∃ fr : Frame, v = normalizeFrame fr ∧ fr ≠ [] := by
  unfold symbolOutcome at h
  split at h
  · exact absurd h (by simp)
  · exact absurd h (by simp)
  · rename_i f heq
    split_ifs at h with h1 h2
    obtain rfl : normalizeFrame (dropna f) = v := Option.some.inj h
    exact ⟨dropna f, rfl, fun hnil => h2 (by simp [hnil])⟩

/-! ### Shape and length lemmas for the generator -/

theorem pricesAux_length (base : ℚ) (g : ℕ → ℚ) :
    ∀ (n : ℕ) (cur : ℚ) (i : ℕ), (pricesAux base g cur i n).length = n := by
  intro n
  induction n with
  | zero => intro cur i; rfl
  | succ k ih => intro cur i; simp [pricesAux, ih]

theorem explicitPlan_length (interval : String) (a b : ℤ) :
    (explicitPlan interval a b).2.length = (explicitPlan interval a b).1 := by
  unfold explicitPlan
  split_ifs <;> simp only [List.length_map, List.length_range]

theorem genTimestamps_length (period interval : String) (fd td : DateArg)
    (now : ℤ) :
    (genTimestamps period interval fd td now).length =
      genPoints period interval fd td := by
  unfold genTimestamps genPoints
  cases h : parsedSpan fd td with
  | none =>
      simp only [defaultTimestamps, List.length_reverse, List.length_map,
        List.length_range]
  | some q => exact explicitPlan_length interval q.1 q.2

/-- The shape invariant of a `SymbolSeries`: all six arrays share one
length. -/
def seriesShapeOk (v : SymbolSeries) : Prop :=
  v.openP.length = v.timestamps.length ∧ v.highP.length = v.timestamps.length ∧
    v.lowP.length = v.timestamps.length ∧
    v.closeP.length = v.timestamps.length ∧
    v.volume.length = v.timestamps.length

theorem generate_sample_data_shape (shash : String → ℤ) (draws : ℕ → ℕ → ℚ)
    (symbol period interval : String) (fd td : DateArg) (now : ℤ) :
    seriesShapeOk (generate_sample_data shash draws symbol period interval fd td now) := by
  unfold generate_sample_data seriesShapeOk
  simp [pricesOf, pricesAux_length, genTimestamps_length]

theorem normalizeFrame_shape (f : Frame) : seriesShapeOk (normalizeFrame f) := by
  unfold normalizeFrame seriesShapeOk
  simp

/-! ### Arithmetic lemmas: rounding, truncation, the clamped walk -/

theorem ratFloor_eq_floor (q : ℚ) : q.floor = ⌊q⌋ := by
  rw [Rat.floor_def', Rat.floor_def]

theorem roundHE_bounds (m : ℚ) : ⌊m⌋ ≤ roundHE m ∧ roundHE m ≤ ⌊m⌋ + 1 := by
  unfold roundHE
  simp only [ratFloor_eq_floor]
  split_ifs <;> omega

theorem roundHE_mono {x y : ℚ} (h : x ≤ y) : roundHE x ≤ roundHE y := by
  rcases lt_or_eq_of_le (Int.floor_le_floor h) with hf | hf
  · calc roundHE x ≤ ⌊x⌋ + 1 := (roundHE_bounds x).2
      _ ≤ ⌊y⌋ := by omega
      _ ≤ roundHE y := (roundHE_bounds y).1
  · unfold roundHE
    simp only [ratFloor_eq_floor]
    rw [hf]
    split_ifs <;> first | omega | linarith

theorem roundHE_intCast (k : ℤ) : roundHE (k : ℚ) = k := by
  unfold roundHE
  simp only [ratFloor_eq_floor]
  rw [Int.floor_intCast]
  have h0 : (k : ℚ) - (k : ℚ) < 1 / 2 := by norm_num
  rw [if_pos h0]

theorem pyround2_mono {a b : ℚ} (h : a ≤ b) : pyround2 a ≤ pyround2 b := by
  unfold pyround2
  have hr : roundHE (a * 100) ≤ roundHE (b * 100) := roundHE_mono (by linarith)
  have : ((roundHE (a * 100) : ℚ)) ≤ ((roundHE (b * 100) : ℚ)) :=
    Int.cast_le.mpr hr
  linarith

theorem pyround2_fix (k : ℤ) : pyround2 ((k : ℚ) / 100) = (k : ℚ) / 100 := by
  unfold pyround2
  rw [div_mul_cancel₀ _ (by norm_num : (100 : ℚ) ≠ 0), roundHE_intCast]

theorem pyround2_min (a b : ℚ) :
    pyround2 (min a b) = min (pyround2 a) (pyround2 b) := by
  rcases le_total a b with h | h
  · rw [min_eq_left h, min_eq_left (pyround2_mono h)]
  · rw [min_eq_right h, min_eq_right (pyround2_mono h)]

theorem pyround2_max (a b : ℚ) :
    pyround2 (max a b) = max (pyround2 a) (pyround2 b) := by
  rcases le_total a b with h | h
  · rw [max_eq_right h, max_eq_right (pyround2_mono h)]
  · rw [max_eq_left h, max_eq_left (pyround2_mono h)]

theorem pytrunc_bounds (q : ℚ) :
    q - 1 < (pytrunc q : ℚ) ∧ (pytrunc q : ℚ) < q + 1 := by
  unfold pytrunc
  simp only [ratFloor_eq_floor]
  split_ifs with h
  · refine ⟨Int.sub_one_lt_floor q, ?_⟩
    have := Int.floor_le q
    linarith
  · have h1 := Int.floor_le (-q)
    have h2 := Int.sub_one_lt_floor (-q)
    constructor <;> (push_cast; linarith)

theorem toMs_lt_toMs {t s : ℤ} (hs : usMinute ≤ s) : toMs t < toMs (t + s) := by
  have h1 := pytrunc_bounds ((t : ℚ) / 1000)
  have h2 := pytrunc_bounds (((t + s : ℤ) : ℚ) / 1000)
  have hcast : ((t + s : ℤ) : ℚ) = (t : ℚ) + (s : ℚ) := by push_cast; ring
  have hsq : (60000000 : ℚ) ≤ (s : ℚ) := by
    have : ((usMinute : ℤ) : ℚ) ≤ (s : ℚ) := Int.cast_le.mpr hs
    simpa [usMinute] using this
  have : (toMs t : ℚ) < (toMs (t + s) : ℚ) := by
    unfold toMs
    rw [hcast] at h2
    have hdiv : (t : ℚ) / 1000 + (s : ℚ) / 1000 = ((t : ℚ) + (s : ℚ)) / 1000 := by
      ring
    have hs1000 : (60000 : ℚ) ≤ (s : ℚ) / 1000 := by linarith
    rw [hcast]
    calc (pytrunc ((t : ℚ) / 1000) : ℚ) < (t : ℚ) / 1000 + 1 := h1.2
      _ ≤ ((t : ℚ) + (s : ℚ)) / 1000 - 1 := by rw [← hdiv]; linarith
      _ < (pytrunc (((t : ℚ) + (s : ℚ)) / 1000) : ℚ) := by
          have := h2.1
          linarith
  exact_mod_cast this

theorem clampPrice_bounds (base p : ℚ) (hbase : 0 < base) :
    base * (1 / 2) ≤ clampPrice base p ∧ clampPrice base p ≤ base * 2 := by
  unfold clampPrice
  constructor
  · exact le_min (le_trans (by linarith) (le_max_right _ _)) (by linarith)
  · exact min_le_right _ _

theorem pricesAux_mem_bounds (base : ℚ) (g : ℕ → ℚ) (hbase : 0 < base) :
    ∀ (n : ℕ) (cur : ℚ) (i : ℕ) (p : ℚ), p ∈ pricesAux base g cur i n →
      base * (1 / 2) ≤ p ∧ p ≤ base * 2 := by
  intro n
  induction n with
  | zero => intro cur i p hp; simp [pricesAux] at hp
  | succ k ih =>
      intro cur i p hp
      simp only [pricesAux, List.mem_cons] at hp
      rcases hp with rfl | hp
      · exact clampPrice_bounds base _ hbase
      · exact ih _ _ _ hp

theorem lookup_mem_values {α : Type} (k : String) :
    ∀ (l : List (String × α)) (v : α), l.lookup k = some v → ∃ p ∈ l, p.2 = v := by
  intro l
  induction l with
  | nil => intro v hv; simp at hv
  | cons q t ih =>
      intro v hv
      obtain ⟨a, b⟩ := q
      rcases hq : (k == a) with _ | _
      · rw [List.lookup_cons, hq] at hv
        obtain ⟨p, hp, hpv⟩ := ih v hv
        exact ⟨p, List.mem_cons_of_mem _ hp, hpv⟩
      · rw [List.lookup_cons, hq] at hv
        exact ⟨(a, b), List.mem_cons_self _ _, Option.some.inj hv⟩

theorem basePrice_int (symbol : String) :
    ∃ z : ℤ, basePrice symbol = (z : ℚ) ∧ 0 < z := by
  unfold basePrice
  have hmem : ∀ p ∈ base_prices, ∃ z : ℤ, p.2 = (z : ℚ) ∧ 0 < z := by
    intro p hp
    fin_cases hp
    · exact ⟨175, by norm_num⟩
    · exact ⟨138, by norm_num⟩
    · exact ⟨340, by norm_num⟩
    · exact ⟨155, by norm_num⟩
    · exact ⟨250, by norm_num⟩
    · exact ⟨450, by norm_num⟩
    · exact ⟨320, by norm_num⟩
    · exact ⟨450, by norm_num⟩
    · exact ⟨450, by norm_num⟩
    · exact ⟨380, by norm_num⟩
  cases hl : base_prices.lookup symbol.toUpper with
  | none => exact ⟨100, by norm_num⟩
  | some v =>
      obtain ⟨p, hp, hpv⟩ := lookup_mem_values symbol.toUpper base_prices v hl
      obtain ⟨z, hz, hzpos⟩ := hmem p hp
      exact ⟨z, by simp [← hpv, hz], hzpos⟩

theorem basePrice_pos (symbol : String) : 0 < basePrice symbol := by
  obtain ⟨z, hz, hzpos⟩ := basePrice_int symbol
  rw [hz]
  exact_mod_cast hzpos

theorem defaultPoints_pos (period interval : String) :
    1 ≤ defaultPoints period interval := by
  unfold defaultPoints
  split_ifs <;> norm_num

theorem defaultStep_ge (interval : String) : usMinute ≤ defaultStep interval := by
  unfold defaultStep
  split_ifs <;> simp [usMinute, usHour, usDay]

theorem genPoints_pos (period interval : String) (fd td : DateArg)
    (hspan : parsedSpan fd td = none ∨
      ∃ a b : ℤ, parsedSpan fd td = some (a, b) ∧ 1 ≤ Int.fdiv (b - a) usDay) :
    1 ≤ genPoints period interval fd td := by
  unfold genPoints
  rcases hspan with h | ⟨a, b, h, hd⟩
  · rw [h]
    exact defaultPoints_pos period interval
  · rw [h]
    unfold explicitPlan
    split_ifs <;> (simp only [] ; omega)

theorem pipelineValue_cases (shash : String → ℤ) (draws : ℕ → ℕ → ℚ)
    (env : Env) (now : ℤ) (symbols period : String) (fd td : DateArg)
    (s : String) :
    pipelineValue shash draws env now symbols period fd td s =
        generate_sample_data shash draws s (yfPeriod period) (yfInterval period)
          fd td now ∨
      ∃ fr : Frame, fr ≠ [] ∧
        pipelineValue shash draws env now symbols period fd td s =
          normalizeFrame fr := by
  unfold pipelineValue
  split
  · exact Or.inl rfl
  · cases h : symbolOutcome env (pySplit symbols) (yfPeriod period)
        (yfInterval period) s with
    | none => simp
    | some v =>
        obtain ⟨fr, hv, hne⟩ := symbolOutcome_eq_some h
        exact Or.inr ⟨fr, hne, by simp [hv]⟩

/-! ### Concrete fixtures used by witnesses and counterexamples -/

/-- A process hash function that sends every string to `0` (any fixed
function is a legitimate per-process `hash`). -/
def sh0 : String → ℤ := fun _ => 0

/-- A generator stream that always draws `0`. -/
def dr0 : ℕ → ℕ → ℚ := fun _ _ => 0

/-- Total upstream outage: every provider call raises. -/
def outageEnv : Env :=
  { bulk := fun _ _ _ => Except.error ()
    hist := fun _ _ _ => Except.error ()
    fatal := false }

/-- One complete provider row. -/
def row1 : Row :=
  { ts := 86400000000, openV := some 10, highV := some 11, lowV := some 9,
    closeV := some 10, volV := some 5 }

/-- A provider whose bulk download succeeds with one full row. -/
def liveEnv : Env :=
  { bulk := fun _ _ _ => Except.ok (BulkData.plain [row1])
    hist := fun _ _ _ => Except.error ()
    fatal := false }

/-- The enumerated set of user-facing range tokens (keys of both maps). -/
def RANGE_TOKENS : List String :=
  ["1D", "5D", "1W", "1M", "3M", "6M", "1Y", "2Y", "5Y", "YTD", "MTD"]

/-! ### Claims -/

/-- Claim C7: the range mapper is total on strings; every enumerated token
maps to its table pair (in particular `"1Y"` to `("1y", "1d")`), every string
outside the set silently degrades to the default `("1mo", "1d")`, and both
components are looked up by the same range token. -/
theorem c7_range_mapper (t : String) (ht : t ∉ RANGE_TOKENS) :
    yfPeriod t = "1mo" ∧ yfInterval t = "1d" ∧
      yfPeriod "1Y" = "1y" ∧ yfInterval "1Y" = "1d" ∧
      RANGE_TOKENS.map (fun u => (yfPeriod u, yfInterval u)) =
        [("1d", "1m"), ("5d", "5m"), ("5d", "15m"), ("1mo", "1h"),
         ("3mo", "1d"), ("6mo", "1d"), ("1y", "1d"), ("2y", "1d"),
         ("5y", "1d"), ("ytd", "1d"), ("1mo", "1h")] := by
  have hpk : period_map.map Prod.fst = RANGE_TOKENS := by rfl
  have hik : interval_map.map Prod.fst = RANGE_TOKENS := by rfl
  have h1 : period_map.lookup t = none :=
    lookup_eq_none_of_not_mem_keys t period_map (by rw [hpk]; exact ht)
  have h2 : interval_map.lookup t = none :=
    lookup_eq_none_of_not_mem_keys t interval_map (by rw [hik]; exact ht)
  refine ⟨?_, ?_, rfl, rfl, rfl⟩
  · unfold yfPeriod
    rw [h1]
    rfl
  · unfold yfInterval
    rw [h2]
    rfl

/-- Witness for C7 at the concrete unknown token `"bogus"`. -/
theorem c7_range_mapper_witness :
    yfPeriod "bogus" = "1mo" ∧ yfInterval "bogus" = "1d" :=
  ⟨(c7_range_mapper "bogus" (by decide)).1,
    (c7_range_mapper "bogus" (by decide)).2.1⟩

/-- Claim C2 (counterexample): two invocations of `generate_sample_data` for
the same `(symbol, period, interval)` with no explicit dates are NOT
byte-identical when they observe different `datetime.now()` readings — the
timestamps arrays differ (here: clock readings one hour apart). -/
theorem gen_default_getLast (shash : String → ℤ) (draws : ℕ → ℕ → ℚ)
    (symbol period interval : String) (now : ℤ) :
    (generate_sample_data shash draws symbol period interval Option.none
        Option.none now).timestamps.getLast? = some (toMs now) := by
  show ((defaultTimestamps now interval
      (defaultPoints period interval)).map toMs).getLast? = some (toMs now)
  rw [defaultTimestamps, List.map_reverse, List.getLast?_reverse,
    List.map_map, List.head?_map]
  have h30 : 1 ≤ defaultPoints period interval := defaultPoints_pos period interval
  obtain ⟨k, hk⟩ : ∃ k, defaultPoints period interval = k + 1 :=
    ⟨defaultPoints period interval - 1, by omega⟩
  rw [hk, List.range_succ_eq_map]
  simp

theorem c2_counterexample :
    generate_sample_data sh0 dr0 "AAPL" "1mo" "1h" Option.none Option.none 0 ≠
      generate_sample_data sh0 dr0 "AAPL" "1mo" "1h" Option.none Option.none
        3600000000 := by
  intro h
  have h1 := gen_default_getLast sh0 dr0 "AAPL" "1mo" "1h" 0
  have h2 := gen_default_getLast sh0 dr0 "AAPL" "1mo" "1h" 3600000000
  rw [h] at h1
  rw [h2] at h1
  have hlt : toMs 0 < toMs (0 + 3600000000) :=
    toMs_lt_toMs (by norm_num [usMinute])
  rw [zero_add] at hlt
  exact absurd (Option.some.inj h1) (ne_of_lt hlt).symm

/-- Claim C2 (amended): for a fixed `(symbol, periodCode, intervalCode)` with
no explicit dates and a fixed process hash and seeded stream, the five
open/high/low/close/volume arrays agree between any two invocations; the
whole output (timestamps included) agrees whenever the two invocations
observe the same `datetime.now()` value. -/
theorem c2_amended (shash : String → ℤ) (draws : ℕ → ℕ → ℚ)
    (symbol period interval : String) (now1 now2 : ℤ) :
    (generate_sample_data shash draws symbol period interval Option.none
          Option.none now1).openP =
        (generate_sample_data shash draws symbol period interval Option.none
          Option.none now2).openP ∧
      (generate_sample_data shash draws symbol period interval Option.none
          Option.none now1).highP =
        (generate_sample_data shash draws symbol period interval Option.none
          Option.none now2).highP ∧
      (generate_sample_data shash draws symbol period interval Option.none
          Option.none now1).lowP =
        (generate_sample_data shash draws symbol period interval Option.none
          Option.none now2).lowP ∧
      (generate_sample_data shash draws symbol period interval Option.none
          Option.none now1).closeP =
        (generate_sample_data shash draws symbol period interval Option.none
          Option.none now2).closeP ∧
      (generate_sample_data shash draws symbol period interval Option.none
          Option.none now1).volume =
        (generate_sample_data shash draws symbol period interval Option.none
          Option.none now2).volume ∧
      (now1 = now2 →
        generate_sample_data shash draws symbol period interval Option.none
            Option.none now1 =
          generate_sample_data shash draws symbol period interval Option.none
            Option.none now2) := by
  refine ⟨rfl, rfl, rfl, rfl, rfl, ?_⟩
  rintro rfl
  rfl

/-- Witness for the amended C2 at a concrete shared clock value. -/
theorem c2_amended_witness :
    generate_sample_data sh0 dr0 "AAPL" "1mo" "1h" Option.none Option.none 0 =
      generate_sample_data sh0 dr0 "AAPL" "1mo" "1h" Option.none Option.none 0 :=
  (c2_amended sh0 dr0 "AAPL" "1mo" "1h" 0 0).2.2.2.2.2 rfl

theorem explicitPlan_1h (a b : ℤ) :
    explicitPlan "1h" a b =
      ((min (Int.fdiv (b - a) usDay * 24) (365 * 24)).toNat,
        (List.range ((min (Int.fdiv (b - a) usDay * 24) (365 * 24)).toNat)).map
          (fun (i : ℕ) => a + (i : ℤ) * usHour)) := rfl

/-- Claim C4 (counterexample): with explicit dates spanning 10 days and range
`"1M"` (mapped interval `"1h"`), the synthetic fallback series has 240 points
(one per hour of the explicit span), not the 30 points of the default
period/interval lookup. -/
theorem c4_counterexample :
    ((get_stock_data sh0 dr0 outageEnv 0 "AAPL" "1M" "" (some (Except.ok 0))
          (some (Except.ok (10 * usDay)))).lookup "AAPL").map
        (fun v => v.timestamps.length) = some 240 ∧
      ¬ ((get_stock_data sh0 dr0 outageEnv 0 "AAPL" "1M" "" (some (Except.ok 0))
            (some (Except.ok (10 * usDay)))).lookup "AAPL").map
          (fun v => v.timestamps.length) = some 30 := by
  constructor
  · rfl
  · intro hcontra
    rw [show ((get_stock_data sh0 dr0 outageEnv 0 "AAPL" "1M" ""
        (some (Except.ok 0)) (some (Except.ok (10 * usDay)))).lookup "AAPL").map
        (fun v => v.timestamps.length) = some 240 from rfl] at hcontra
    exact absurd (Option.some.inj hcontra) (by decide)

/-- Claim C4 (amended): when explicit `from_date`/`to_date` spanning 10 days
are supplied with range `"1M"` (interval `"1h"`), the fallback generator
takes the explicit-date branch, not the default lookup: the series has 240
points, one per hour starting at `from_date`. -/
theorem c4_hourly_span (shash : String → ℤ) (draws : ℕ → ℕ → ℚ)
    (symbol : String) (a now : ℤ) :
    (generate_sample_data shash draws symbol "1mo" "1h" (some (Except.ok a))
          (some (Except.ok (a + 10 * usDay))) now).timestamps =
        (List.range 240).map (fun (i : ℕ) => toMs (a + (i : ℤ) * usHour)) ∧
      (generate_sample_data shash draws symbol "1mo" "1h" (some (Except.ok a))
          (some (Except.ok (a + 10 * usDay))) now).closeP.length = 240 := by
  have h240 : (min (Int.fdiv (a + 10 * usDay - a) usDay * 24) (365 * 24)).toNat
      = 240 := by
    rw [show a + 10 * usDay - a = 10 * usDay from by ring,
      Int.mul_fdiv_cancel 10 (by norm_num [usDay])]
    decide
  constructor
  · show ((List.range ((min (Int.fdiv (a + 10 * usDay - a) usDay * 24)
        (365 * 24)).toNat)).map (fun (i : ℕ) => a + (i : ℤ) * usHour)).map toMs =
      (List.range 240).map (fun (i : ℕ) => toMs (a + (i : ℤ) * usHour))
    rw [h240, List.map_map]
    rfl
  · show ((pricesOf (basePrice symbol) (draws (seedOf shash symbol))
        ((min (Int.fdiv (a + 10 * usDay - a) usDay * 24)
          (365 * 24)).toNat)).map pyround2).length = 240
    simp only [List.length_map, pricesOf, pricesAux_length, h240]

/-- Claim C5 (counterexample): with explicit dates whose span is below one
day (`from_date = to_date`), the fallback series is empty and that
zero-length series IS the final result returned to the caller. -/
theorem c5_counterexample :
    ((get_stock_data sh0 dr0 outageEnv 0 "AAPL" "3M" "" (some (Except.ok 0))
          (some (Except.ok 0))).lookup "AAPL").map
        (fun v => v.timestamps.length) = some 0 := rfl

/-- Claim C5 (amended): every series in the final result is non-empty
provided the request does not carry explicit parseable dates spanning less
than one whole day; under that proviso (which also covers absent or
unparseable dates) every entry of the result has length at least 1.  (The
unamended claim fails: a zero-length synthetic series reaches the caller
whenever both dates parse and `(to_date - from_date).days < 1`.) -/
theorem c5_nonempty (shash : String → ℤ) (draws : ℕ → ℕ → ℚ) (env : Env)
    (now : ℤ) (symbols period interval : String) (fd td : DateArg)
    (t : String) (v : SymbolSeries)
    (hspan : parsedSpan fd td = none ∨
      ∃ a b : ℤ, parsedSpan fd td = some (a, b) ∧ 1 ≤ Int.fdiv (b - a) usDay)
    (hl : (get_stock_data shash draws env now symbols period interval fd
        td).lookup t = some v) :
    1 ≤ v.timestamps.length := by
  rw [get_stock_data_lookup] at hl
  split at hl
  · obtain rfl : pipelineValue shash draws env now symbols period fd td t = v :=
      Option.some.inj hl
    rcases pipelineValue_cases shash draws env now symbols period fd td t with
      hgen | ⟨fr, hfr, hval⟩
    · rw [hgen]
      have hts : (generate_sample_data shash draws t (yfPeriod period)
          (yfInterval period) fd td now).timestamps.length =
          genPoints (yfPeriod period) (yfInterval period) fd td := by
        show ((genTimestamps (yfPeriod period) (yfInterval period) fd td
          now).map toMs).length = _
        rw [List.length_map, genTimestamps_length]
      rw [hts]
      exact genPoints_pos _ _ _ _ hspan
    · rw [hval]
      show 1 ≤ (fr.map (fun r => toMs r.ts)).length
      rw [List.length_map]
      exact List.length_pos.mpr hfr
  · exact absurd hl (by simp)

/-- Witness for the amended C5: a total outage with no explicit dates still
yields a non-empty (30-point) series for the requested symbol. -/
theorem c5_nonempty_witness :
    1 ≤ (generate_sample_data sh0 dr0 "AAPL" "1mo" "1h" Option.none Option.none
        0).timestamps.length :=
  c5_nonempty sh0 dr0 outageEnv 0 "AAPL" "1M" "" Option.none Option.none "AAPL"
    (generate_sample_data sh0 dr0 "AAPL" "1mo" "1h" Option.none Option.none 0)
    (Or.inl rfl) rfl

/-- Claim C6: every `SymbolSeries` in any result of `get_stock_data` —
live-normalized or synthetic — has its six arrays of equal length. -/
theorem c6_shape (shash : String → ℤ) (draws : ℕ → ℕ → ℚ) (env : Env)
    (now : ℤ) (symbols period interval : String) (fd td : DateArg)
    (t : String) (v : SymbolSeries)
    (hl : (get_stock_data shash draws env now symbols period interval fd
        td).lookup t = some v) :
    seriesShapeOk v := by
  rw [get_stock_data_lookup] at hl
  split at hl
  · obtain rfl : pipelineValue shash draws env now symbols period fd td t = v :=
      Option.some.inj hl
    rcases pipelineValue_cases shash draws env now symbols period fd td t with
      hgen | ⟨fr, _, hval⟩
    · rw [hgen]
      exact generate_sample_data_shape shash draws t (yfPeriod period)
        (yfInterval period) fd td now
    · rw [hval]
      exact normalizeFrame_shape fr
  · exact absurd hl (by simp)

/-- Witness for C6: the synthetic entry produced for `"AAPL"` under a total
outage has the shape invariant. -/
theorem c6_shape_witness :
    seriesShapeOk (generate_sample_data sh0 dr0 "AAPL" "1mo" "1h" Option.none
      Option.none 0) :=
  c6_shape sh0 dr0 outageEnv 0 "AAPL" "1M" "" Option.none Option.none "AAPL"
    (generate_sample_data sh0 dr0 "AAPL" "1mo" "1h" Option.none Option.none 0)
    rfl

/-- Claim C1: `get_stock_data` is total for every provider behaviour — the
embedding returns a result for any `Env` (exceptions included, each modelled
as `Except.error` or `Env.fatal`) — and the result has exactly one entry
keyed by each comma-split token of `symbols` (keys are duplicate-free and are
precisely the tokens), each entry being either the symbol's synthetic series
or a normalized live frame. -/
theorem c1_totality (shash : String → ℤ) (draws : ℕ → ℕ → ℚ) (env : Env)
    (now : ℤ) (symbols period interval : String) (fd td : DateArg)
    (t : String) (ht : t ∈ pySplit symbols) :
    ((get_stock_data shash draws env now symbols period interval fd td).map
        Prod.fst).Nodup ∧
      (∀ u, u ∈ (get_stock_data shash draws env now symbols period interval fd
          td).map Prod.fst ↔ u ∈ pySplit symbols) ∧
      ∃ v, (get_stock_data shash draws env now symbols period interval fd
          td).lookup t = some v ∧
        (v = generate_sample_data shash draws t (yfPeriod period)
            (yfInterval period) fd td now ∨
          ∃ fr : Frame, v = normalizeFrame fr) := by
  refine ⟨get_stock_data_keys_nodup shash draws env now symbols period interval
    fd td, fun u => get_stock_data_keys_mem shash draws env now symbols period
    interval fd td u, pipelineValue shash draws env now symbols period fd td t,
    ?_, ?_⟩
  · rw [get_stock_data_lookup, if_pos ht]
  · rcases pipelineValue_cases shash draws env now symbols period fd td t with
      hgen | ⟨fr, _, hval⟩
    · exact Or.inl hgen
    · exact Or.inr ⟨fr, hval⟩

/-- Witness for C1 under total outage with a duplicate-free two-token symbol
string. -/
theorem c1_totality_witness :
    ((get_stock_data sh0 dr0 outageEnv 0 "AAPL,ZZ" "1M" "" Option.none
        Option.none).map Prod.fst).Nodup ∧
      (∀ u, u ∈ (get_stock_data sh0 dr0 outageEnv 0 "AAPL,ZZ" "1M" ""
          Option.none Option.none).map Prod.fst ↔ u ∈ pySplit "AAPL,ZZ") ∧
      ∃ v, (get_stock_data sh0 dr0 outageEnv 0 "AAPL,ZZ" "1M" "" Option.none
          Option.none).lookup "ZZ" = some v ∧
        (v = generate_sample_data sh0 dr0 "ZZ" (yfPeriod "1M")
            (yfInterval "1M") Option.none Option.none 0 ∨
          ∃ fr : Frame, v = normalizeFrame fr) :=
  c1_totality sh0 dr0 outageEnv 0 "AAPL,ZZ" "1M" "" Option.none Option.none
    "ZZ" (by decide)

/-- Claim C3: every close price of every synthetic series lies within
`[0.5 * base, 2.0 * base]` for the symbol's base price (case-insensitive
table lookup with default 100), for any draws, dates and clock. -/
theorem c3_close_bounds (shash : String → ℤ) (draws : ℕ → ℕ → ℚ)
    (symbol period interval : String) (fd td : DateArg) (now : ℤ) (c : ℚ)
    (hc : c ∈ (generate_sample_data shash draws symbol period interval fd td
        now).closeP) :
    basePrice symbol * (1 / 2) ≤ c ∧ c ≤ basePrice symbol * 2 := by
  obtain ⟨z, hz, hzpos⟩ := basePrice_int symbol
  have hbasepos : 0 < basePrice symbol := basePrice_pos symbol
  have hcl : (generate_sample_data shash draws symbol period interval fd td
      now).closeP =
      (pricesOf (basePrice symbol) (draws (seedOf shash symbol))
        (genPoints period interval fd td)).map pyround2 := rfl
  rw [hcl] at hc
  obtain ⟨p, hp, rfl⟩ := List.mem_map.mp hc
  have hb := pricesAux_mem_bounds (basePrice symbol)
    (draws (seedOf shash symbol)) hbasepos (genPoints period interval fd td)
    (basePrice symbol) 0 p hp
  have hlofix : pyround2 (basePrice symbol * (1 / 2)) =
      basePrice symbol * (1 / 2) := by
    rw [show basePrice symbol * (1 / 2) = ((50 * z : ℤ) : ℚ) / 100 by
      rw [hz]; push_cast; ring]
    exact pyround2_fix (50 * z)
  have hhifix : pyround2 (basePrice symbol * 2) = basePrice symbol * 2 := by
    rw [show basePrice symbol * 2 = ((200 * z : ℤ) : ℚ) / 100 by
      rw [hz]; push_cast; ring]
    exact pyround2_fix (200 * z)
  constructor
  · calc basePrice symbol * (1 / 2)
        = pyround2 (basePrice symbol * (1 / 2)) := hlofix.symm
      _ ≤ pyround2 p := pyround2_mono hb.1
  · calc pyround2 p ≤ pyround2 (basePrice symbol * 2) := pyround2_mono hb.2
      _ = basePrice symbol * 2 := hhifix

/-- Witness for C3: the first close of the `"AAPL"` `5d/1d` series under the
all-zero draw stream is in `[87.5, 350]`. -/
theorem c3_close_bounds_witness :
    basePrice "AAPL" * (1 / 2) ≤
        pyround2 (clampPrice (basePrice "AAPL")
          (basePrice "AAPL" * (1 + dr0 (seedOf sh0 "AAPL") 0))) ∧
      pyround2 (clampPrice (basePrice "AAPL")
          (basePrice "AAPL" * (1 + dr0 (seedOf sh0 "AAPL") 0))) ≤
        basePrice "AAPL" * 2 :=
  c3_close_bounds sh0 dr0 "AAPL" "5d" "1d" Option.none Option.none 0
    (pyround2 (clampPrice (basePrice "AAPL")
      (basePrice "AAPL" * (1 + dr0 (seedOf sh0 "AAPL") 0))))
    (List.mem_map_of_mem pyround2 (List.mem_cons_self _ _))

/-- Claim C9: `from_date`/`to_date` never influence the live path.  The
upstream fetch is consulted only with the symbol list and the mapped
`(period, interval)` — in the embedding `fetchRaw`/`symbolOutcome` take no
date arguments at all — so two calls differing only in the date bounds put
the same live series in the result for every symbol whose pipeline stage
succeeds; the dates reach only the synthetic generator. -/
theorem c9_dates_no_live_influence (shash : String → ℤ) (draws : ℕ → ℕ → ℚ)
    (env : Env) (now : ℤ) (symbols period interval : String)
    (fd1 td1 fd2 td2 : DateArg) (s : String) (v : SymbolSeries)
    (hfatal : env.fatal = false) (hs : s ∈ pySplit symbols)
    (hlive : symbolOutcome env (pySplit symbols) (yfPeriod period)
        (yfInterval period) s = some v) :
    (get_stock_data shash draws env now symbols period interval fd1
        td1).lookup s = some v ∧
      (get_stock_data shash draws env now symbols period interval fd2
        td2).lookup s = some v := by
  constructor <;>
  · rw [get_stock_data_lookup, if_pos hs]
    unfold pipelineValue
    rw [hfatal]
    simp [hlive]

/-- Witness for C9: a live one-row bulk frame is returned unchanged whether
or not explicit dates accompany the request. -/
theorem c9_dates_witness :
    (get_stock_data sh0 dr0 liveEnv 0 "A" "1M" "" Option.none
        Option.none).lookup "A" = some (normalizeFrame [row1]) ∧
      (get_stock_data sh0 dr0 liveEnv 0 "A" "1M" "" (some (Except.ok 0))
        (some (Except.ok usDay))).lookup "A" = some (normalizeFrame [row1]) :=
  c9_dates_no_live_influence sh0 dr0 liveEnv 0 "A" "1M" "" Option.none
    Option.none (some (Except.ok 0)) (some (Except.ok usDay)) "A"
    (normalizeFrame [row1]) rfl (by decide) rfl

/-- Claim C10: in every synthetic series the OHLC envelope survives the
2-decimal rounding: `low <= min(open, close)` and `high >= max(open, close)`
at every index.  The hypothesis bounds each Gaussian draw below by `-1`
(a draw below -1 would be a 200-sigma event for `N(0, 0.005)`, far outside
anything numpy's sampler can emit). -/
theorem c10_envelope (shash : String → ℤ) (draws : ℕ → ℕ → ℚ)
    (symbol period interval : String) (fd td : DateArg) (now : ℤ) (idx : ℕ)
    (hdr : ∀ sd j, -1 ≤ draws sd j)
    (hidx : idx < (generate_sample_data shash draws symbol period interval fd
        td now).closeP.length) :
    (generate_sample_data shash draws symbol period interval fd td
          now).lowP.getD idx 0 ≤
        min ((generate_sample_data shash draws symbol period interval fd td
            now).openP.getD idx 0)
          ((generate_sample_data shash draws symbol period interval fd td
            now).closeP.getD idx 0) ∧
      max ((generate_sample_data shash draws symbol period interval fd td
            now).openP.getD idx 0)
          ((generate_sample_data shash draws symbol period interval fd td
            now).closeP.getD idx 0) ≤
        (generate_sample_data shash draws symbol period interval fd td
          now).highP.getD idx 0 := by
  have hbasepos : 0 < basePrice symbol := basePrice_pos symbol
  have hidx2 : idx < (pricesOf (basePrice symbol)
      (draws (seedOf shash symbol)) (genPoints period interval fd td)).length := by
    have : (generate_sample_data shash draws symbol period interval fd td
        now).closeP.length = (pricesOf (basePrice symbol)
        (draws (seedOf shash symbol)) (genPoints period interval fd
          td)).length := by
      show ((pricesOf _ _ _).map pyround2).length = _
      rw [List.length_map]
    rwa [this] at hidx
  have hc := List.get_mem (pricesOf (basePrice symbol)
    (draws (seedOf shash symbol)) (genPoints period interval fd td))
    idx hidx2
  have hcb := pricesAux_mem_bounds (basePrice symbol)
    (draws (seedOf shash symbol)) hbasepos (genPoints period interval fd td)
    (basePrice symbol) 0 _ hc
  have hcpos : 0 < (pricesOf (basePrice symbol) (draws (seedOf shash symbol))
      (genPoints period interval fd td)).get ⟨idx, hidx2⟩ := by
    have := hcb.1
    nlinarith
  have hclose : (generate_sample_data shash draws symbol period interval fd td
      now).closeP.getD idx 0 = pyround2 ((pricesOf (basePrice symbol)
        (draws (seedOf shash symbol)) (genPoints period interval fd
          td)).get ⟨idx, hidx2⟩) := by
    show ((pricesOf _ _ _).map pyround2).getD idx 0 = _
    rw [List.getD_eq_getElem?_getD, List.getElem?_map,
      List.getElem?_eq_getElem hidx2]
    rfl
  have hopen : (generate_sample_data shash draws symbol period interval fd td
      now).openP.getD idx 0 = pyround2 (ohlcOpen (draws (seedOf shash symbol))
        (genPoints period interval fd td) idx ((pricesOf (basePrice symbol)
          (draws (seedOf shash symbol)) (genPoints period interval fd
            td)).get ⟨idx, hidx2⟩)) := by
    show ((pricesOf _ _ _).enum.map (fun q => pyround2 (ohlcOpen _ _ q.1
      q.2))).getD idx 0 = _
    rw [List.getD_eq_getElem?_getD, List.getElem?_map, List.getElem?_enum,
      List.getElem?_eq_getElem hidx2]
    rfl
  have hlow : (generate_sample_data shash draws symbol period interval fd td
      now).lowP.getD idx 0 = pyround2 (ohlcLow (draws (seedOf shash symbol))
        (genPoints period interval fd td) idx ((pricesOf (basePrice symbol)
          (draws (seedOf shash symbol)) (genPoints period interval fd
            td)).get ⟨idx, hidx2⟩)) := by
    show ((pricesOf _ _ _).enum.map (fun q => pyround2 (ohlcLow _ _ q.1
      q.2))).getD idx 0 = _
    rw [List.getD_eq_getElem?_getD, List.getElem?_map, List.getElem?_enum,
      List.getElem?_eq_getElem hidx2]
    rfl
  have hhigh : (generate_sample_data shash draws symbol period interval fd td
      now).highP.getD idx 0 = pyround2 (ohlcHigh (draws (seedOf shash symbol))
        (genPoints period interval fd td) idx ((pricesOf (basePrice symbol)
          (draws (seedOf shash symbol)) (genPoints period interval fd
            td)).get ⟨idx, hidx2⟩)) := by
    show ((pricesOf _ _ _).enum.map (fun q => pyround2 (ohlcHigh _ _ q.1
      q.2))).getD idx 0 = _
    rw [List.getD_eq_getElem?_getD, List.getElem?_map, List.getElem?_enum,
      List.getElem?_eq_getElem hidx2]
    rfl
  rw [hclose, hopen, hlow, hhigh]
  have hn1 : -1 ≤ draws (seedOf shash symbol)
      (genPoints period interval fd td + 3 * idx) := hdr _ _
  have habs2 := abs_nonneg (draws (seedOf shash symbol)
    (genPoints period interval fd td + 3 * idx + 1))
  have habs3 := abs_nonneg (draws (seedOf shash symbol)
    (genPoints period interval fd td + 3 * idx + 2))
  have hopos : 0 ≤ ohlcOpen (draws (seedOf shash symbol))
      (genPoints period interval fd td) idx ((pricesOf (basePrice symbol)
        (draws (seedOf shash symbol)) (genPoints period interval fd
          td)).get ⟨idx, hidx2⟩) := by
    unfold ohlcOpen
    exact mul_nonneg hcpos.le (by linarith)
  have hmin0 : 0 ≤ min (ohlcOpen (draws (seedOf shash symbol))
      (genPoints period interval fd td) idx ((pricesOf (basePrice symbol)
        (draws (seedOf shash symbol)) (genPoints period interval fd
          td)).get ⟨idx, hidx2⟩)) ((pricesOf (basePrice symbol)
        (draws (seedOf shash symbol)) (genPoints period interval fd
          td)).get ⟨idx, hidx2⟩) := le_min hopos hcpos.le
  have hmax0 : 0 ≤ max (ohlcOpen (draws (seedOf shash symbol))
      (genPoints period interval fd td) idx ((pricesOf (basePrice symbol)
        (draws (seedOf shash symbol)) (genPoints period interval fd
          td)).get ⟨idx, hidx2⟩)) ((pricesOf (basePrice symbol)
        (draws (seedOf shash symbol)) (genPoints period interval fd
          td)).get ⟨idx, hidx2⟩) :=
    le_trans hcpos.le (le_max_right _ _)
  constructor
  · calc pyround2 (ohlcLow (draws (seedOf shash symbol))
        (genPoints period interval fd td) idx ((pricesOf (basePrice symbol)
          (draws (seedOf shash symbol)) (genPoints period interval fd
            td)).get ⟨idx, hidx2⟩))
        ≤ pyround2 (min (ohlcOpen (draws (seedOf shash symbol))
            (genPoints period interval fd td) idx ((pricesOf (basePrice symbol)
              (draws (seedOf shash symbol)) (genPoints period interval fd
                td)).get ⟨idx, hidx2⟩)) ((pricesOf (basePrice symbol)
            (draws (seedOf shash symbol)) (genPoints period interval fd
              td)).get ⟨idx, hidx2⟩)) := by
          apply pyround2_mono
          unfold ohlcLow
          exact mul_le_of_le_one_right hmin0 (by linarith)
      _ = _ := pyround2_min _ _
  · calc max (pyround2 (ohlcOpen (draws (seedOf shash symbol))
        (genPoints period interval fd td) idx ((pricesOf (basePrice symbol)
          (draws (seedOf shash symbol)) (genPoints period interval fd
            td)).get ⟨idx, hidx2⟩))) (pyround2 ((pricesOf (basePrice symbol)
          (draws (seedOf shash symbol)) (genPoints period interval fd
            td)).get ⟨idx, hidx2⟩))
        = pyround2 (max (ohlcOpen (draws (seedOf shash symbol))
            (genPoints period interval fd td) idx ((pricesOf (basePrice symbol)
              (draws (seedOf shash symbol)) (genPoints period interval fd
                td)).get ⟨idx, hidx2⟩)) ((pricesOf (basePrice symbol)
            (draws (seedOf shash symbol)) (genPoints period interval fd
              td)).get ⟨idx, hidx2⟩)) := (pyround2_max _ _).symm
      _ ≤ _ := by
          apply pyround2_mono
          unfold ohlcHigh
          exact le_mul_of_one_le_right hmax0 (by linarith)

/-- Witness for C10 at index 0 of the `"AAPL"` `5d/1d` series with the
all-zero draw stream. -/
theorem c10_envelope_witness :
    (0 : ℕ) < (generate_sample_data sh0 dr0 "AAPL" "5d" "1d" Option.none
        Option.none 0).closeP.length ∧
      ((generate_sample_data sh0 dr0 "AAPL" "5d" "1d" Option.none Option.none
            0).lowP.getD 0 0 ≤
          min ((generate_sample_data sh0 dr0 "AAPL" "5d" "1d" Option.none
              Option.none 0).openP.getD 0 0)
            ((generate_sample_data sh0 dr0 "AAPL" "5d" "1d" Option.none
              Option.none 0).closeP.getD 0 0) ∧
        max ((generate_sample_data sh0 dr0 "AAPL" "5d" "1d" Option.none
              Option.none 0).openP.getD 0 0)
            ((generate_sample_data sh0 dr0 "AAPL" "5d" "1d" Option.none
              Option.none 0).closeP.getD 0 0) ≤
          (generate_sample_data sh0 dr0 "AAPL" "5d" "1d" Option.none
            Option.none 0).highP.getD 0 0) :=
  ⟨by decide, c10_envelope sh0 dr0 "AAPL" "5d" "1d" Option.none Option.none 0 0
    (fun sd j => by norm_num [dr0]) (by decide)⟩

theorem chain_map_range {R : ℤ → ℤ → Prop} (f : ℕ → ℤ)
    (hf : ∀ i, R (f i) (f (i + 1))) :
    ∀ n : ℕ, List.Chain' R ((List.range n).map f) := by
  intro n
  induction n with
  | zero => simp
  | succ k ih =>
      rw [List.range_succ, List.map_append]
      cases k with
      | zero => simp
      | succ m =>
          apply List.Chain'.append ih (by simp)
          intro x hx y hy
          have hlast : ((List.range (m + 1)).map f).getLast? = some (f m) := by
            rw [List.range_succ, List.map_append]
            exact List.getLast?_concat _
          rw [hlast] at hx
          simp only [List.map_cons, List.map_nil, List.head?_cons,
            Option.mem_def, Option.some.injEq] at hx hy
          rw [← hx, ← hy]
          exact hf m

/-- Claim C8: in every synthetic series (explicit-date path or default
period/interval path) the timestamps are strictly increasing, oldest first;
each entry is the millisecond epoch integer `toMs` of a microsecond
datetime. -/
theorem c8_timestamps_sorted (shash : String → ℤ) (draws : ℕ → ℕ → ℚ)
    (symbol period interval : String) (fd td : DateArg) (now : ℤ) :
    List.Chain' (fun x y : ℤ => x < y)
      (generate_sample_data shash draws symbol period interval fd td
        now).timestamps := by
  show List.Chain' (fun x y : ℤ => x < y)
    ((genTimestamps period interval fd td now).map toMs)
  unfold genTimestamps
  cases hps : parsedSpan fd td with
  | none =>
      rw [defaultTimestamps, List.map_reverse, List.chain'_reverse,
        List.map_map]
      apply chain_map_range
      intro i
      show toMs (now - ((i : ℕ) + 1 : ℕ) * defaultStep interval) <
        toMs (now - (i : ℤ) * defaultStep interval)
      have he : now - (i : ℤ) * defaultStep interval =
          now - (((i : ℕ) + 1 : ℕ) : ℤ) * defaultStep interval +
            defaultStep interval := by
        push_cast
        ring
      rw [he]
      exact toMs_lt_toMs (defaultStep_ge interval)
  | some q =>
      obtain ⟨a, b⟩ := q
      show List.Chain' (fun x y : ℤ => x < y)
        (((explicitPlan interval a b).2).map toMs)
      unfold explicitPlan
      split_ifs <;>
      · simp only [List.map_map]
        apply chain_map_range
        intro i
        show toMs (a + (i : ℤ) * _) < toMs (a + (((i : ℕ) + 1 : ℕ) : ℤ) * _)
        first
        | (have he : a + (((i : ℕ) + 1 : ℕ) : ℤ) * usDay =
              a + (i : ℤ) * usDay + usDay := by push_cast; ring
           rw [he]
           exact toMs_lt_toMs (by norm_num [usMinute, usDay]))
        | (have he : a + (((i : ℕ) + 1 : ℕ) : ℤ) * usHour =
              a + (i : ℤ) * usHour + usHour := by push_cast; ring
           rw [he]
           exact toMs_lt_toMs (by norm_num [usMinute, usHour]))
